import Mathlib

/- `Rat.add`, `Rat.sub`, `Rat.mul` and `Rat.inv` are `@[irreducible]` in
Batteries, which blocks `decide` on concrete rational computations; they
are made semireducible again so that witnesses evaluate by `decide`. -/
set_option allowUnsafeReducibility true in
attribute [semireducible] Rat.add Rat.sub Rat.mul Rat.inv

/-!
Verification of the local relevance-scoring engine of the econ-discovery
repository (`src/processor.py`).  The Python code is shallowly embedded:

* Python strings are `List Char` (`Str`); `str.lower` is `Char.toLower`
  mapped over the list, and Python's `needle in haystack` substring test
  is `containsSub`.
* Python floats are modelled as exact rationals (`ℚ`); `round(x, n)` is
  modelled as exact round-half-to-even on rationals (`rhe`).
* `set(tokens)` followed by `" ".join(...)` has no specified iteration
  order in Python (string hashing is randomised).  Where the order is
  irrelevant the canonical first-occurrence deduplication (`dedupF`,
  insertion order) is used; where it matters — multi-word keyword
  containment in the joined text — the enumeration is an explicit
  parameter (`matchPaperOrd`), quantified over all duplicate-free
  listings of the token set.
* Python dicts are insertion-ordered association lists; `d.get(k, ...)`
  is `lookupKw`/`getKw` with a default.
All definitions are executable and are translated line by line from
`src/processor.py`.
-/

namespace EconDiscovery

/-- Python strings, modelled as lists of characters. -/
abbrev Str := List Char

/-- Conversion from Lean string literals to the model's string type. -/
def toL (s : String) : Str := s.data

/-- First-occurrence deduplication with an accumulator of already-seen
elements.  `dedupGo seen l` drops from `l` every element of `seen` and
every repeat, keeping first occurrences in order. -/
def dedupGo {α : Type} [DecidableEq α] (seen : List α) : List α → List α
  | [] => []
  | x :: xs => if x ∈ seen then dedupGo seen xs else x :: dedupGo (x :: seen) xs

/-- First-occurrence deduplication: the canonical model of constructing a
Python `set` from a list (insertion order retained). -/
def dedupF {α : Type} [DecidableEq α] (l : List α) : List α := dedupGo [] l

/-- Model of a Python set literal of strings: the source-order element
list, deduplicated. -/
def kwSet (l : List String) : List Str := dedupF (l.map toL)

/-- Round-half-to-even to the nearest integer (the rounding mode of
Python's built-in `round`), on exact rationals. -/
def rhe (x : ℚ) : ℤ :=
  if x - ⌊x⌋ < 1/2 then ⌊x⌋
  else if 1/2 < x - ⌊x⌋ then ⌊x⌋ + 1
  else if ⌊x⌋ % 2 = 0 then ⌊x⌋ else ⌊x⌋ + 1

/-- Python's `round(x, 1)` on the exact-rational model. -/
def round1 (x : ℚ) : ℚ := (rhe (x * 10) : ℚ) / 10

/-- Python's `round(x, 2)` on the exact-rational model. -/
def round2 (x : ℚ) : ℚ := (rhe (x * 100) : ℚ) / 100
/-- The STOPWORDS set of `src/processor.py` (a Python set literal; only
membership is ever tested, so source order is kept). -/
def STOPWORDS : List Str :=
  List.map toL [
    "a", "an", "the", "and", "or", "but", "if", "then",
    "else", "when", "at", "by", "for", "with", "about", "against",
    "between", "into", "through", "during", "before", "after", "above", "below",
    "to", "from", "up", "down", "in", "out", "on", "off",
    "over", "under", "again", "further", "once", "here", "there", "all",
    "each", "few", "more", "most", "other", "some", "such", "no",
    "nor", "not", "only", "own", "same", "so", "than", "too",
    "very", "can", "will", "just", "should", "now", "also", "well",
    "even", "back", "much", "how", "where", "which", "while", "who",
    "whom", "why", "what", "this", "that", "these", "those", "am",
    "is", "are", "was", "were", "be", "been", "being", "have",
    "has", "had", "having", "do", "does", "did", "doing", "would",
    "could", "might", "must", "shall", "i", "me", "my", "myself",
    "we", "our", "ours", "ourselves", "you", "your", "yours", "yourself",
    "he", "him", "his", "himself", "she", "her", "hers", "herself",
    "it", "its", "itself", "they", "them", "their", "theirs", "themselves",
    "paper", "study", "research", "analysis", "result", "find", "show", "suggest",
    "examine", "investigate", "use", "using", "based", "effect", "impact", "evidence",
    "data", "method"]

/-- The FIELD_KEYWORDS table of `src/processor.py`: an insertion-ordered dict
mapping labels to keyword sets (set literals are modelled as their
source-order element lists, deduplicated, via `kwSet`). -/
def FIELD_KEYWORDS : List (Str × List Str) := [
  (toL "Microeconomics", kwSet [
    "microeconomic", "consumer", "producer", "demand", "supply",
    "equilibrium", "utility", "preference", "choice", "optimization",
    "market", "price", "elasticity", "welfare", "surplus",
    "efficiency", "allocation", "mechanism"]),
  (toL "Macroeconomics", kwSet [
    "macroeconomic", "gdp", "growth", "inflation", "unemployment",
    "recession", "business cycle", "aggregate", "monetary", "fiscal",
    "central bank", "interest rate", "output", "consumption", "investment",
    "savings"]),
  (toL "Econometrics", kwSet [
    "econometric", "estimation", "regression", "identification", "inference",
    "estimator", "consistent", "unbiased", "heteroskedasticity", "autocorrelation",
    "specification", "model selection", "bootstrap", "asymptotic"]),
  (toL "Labor Economics", kwSet [
    "labor", "wage", "employment", "unemployment", "worker",
    "job", "human capital", "education", "training", "skill",
    "occupation", "minimum wage", "union", "collective bargaining", "discrimination",
    "earnings", "income", "mobility", "search", "matching"]),
  (toL "Public Economics", kwSet [
    "public", "tax", "taxation", "government", "fiscal",
    "spending", "redistribution", "welfare", "social insurance", "public good",
    "externality", "regulation", "public finance", "budget", "deficit"]),
  (toL "International Economics", kwSet [
    "international", "trade", "export", "import", "tariff",
    "globalization", "exchange rate", "currency", "capital flow", "foreign direct investment",
    "comparative advantage", "trade policy", "protectionism", "wto"]),
  (toL "Development Economics", kwSet [
    "development", "poverty", "developing country", "aid", "microfinance",
    "rural", "agriculture", "infrastructure", "institution", "corruption",
    "growth", "inequality", "health", "education", "nutrition"]),
  (toL "Financial Economics", kwSet [
    "financial", "finance", "asset", "stock", "bond",
    "return", "risk", "portfolio", "investment", "banking",
    "credit", "loan", "mortgage", "interest rate", "yield",
    "market", "liquidity", "capital"]),
  (toL "Industrial Organization", kwSet [
    "industrial organization", "firm", "market structure", "competition", "monopoly",
    "oligopoly", "antitrust", "merger", "entry", "exit",
    "pricing", "product differentiation", "vertical integration"]),
  (toL "Behavioral Economics", kwSet [
    "behavioral", "psychology", "bias", "heuristic", "bounded rationality",
    "prospect theory", "loss aversion", "time preference", "present bias", "nudge",
    "framing", "anchoring", "overconfidence", "social preference"]),
  (toL "Health Economics", kwSet [
    "health", "healthcare", "hospital", "physician", "insurance",
    "medicare", "medicaid", "pharmaceutical", "drug", "mortality",
    "morbidity", "disease", "treatment", "patient", "medical"]),
  (toL "Environmental Economics", kwSet [
    "environmental", "climate", "carbon", "emission", "pollution",
    "energy", "renewable", "sustainability", "conservation", "natural resource",
    "cap and trade", "carbon tax", "externality", "green"]),
  (toL "Urban Economics", kwSet [
    "urban", "city", "housing", "rent", "real estate",
    "land", "zoning", "agglomeration", "spatial", "commute",
    "transportation", "neighborhood", "gentrification", "segregation", "metropolitan"]),
  (toL "Economic History", kwSet [
    "history", "historical", "long run", "persistence", "colonial",
    "industrial revolution", "great depression", "institution", "slavery", "war",
    "conflict", "demographic transition"]),
  (toL "Political Economy", kwSet [
    "political economy", "institution", "democracy", "autocracy", "regime",
    "voting", "election", "politician", "lobbying", "corruption",
    "redistribution", "inequality", "conflict", "state capacity"]),
  (toL "Comparative Politics", kwSet [
    "comparative", "cross-country", "regime", "democracy", "autocracy",
    "institution", "parliament", "coalition", "party", "electoral system",
    "federalism", "decentralization", "state building"]),
  (toL "International Relations", kwSet [
    "international relations", "conflict", "war", "peace", "diplomacy",
    "alliance", "treaty", "sanction", "nuclear", "security",
    "terrorism", "cooperation", "international organization", "sovereignty"]),
  (toL "American Politics", kwSet [
    "american politics", "congress", "senate", "house", "president",
    "supreme court", "partisan", "republican", "democrat", "polarization",
    "lobbying", "campaign", "primary", "electoral college"]),
  (toL "Political Theory", kwSet [
    "political theory", "justice", "liberty", "equality", "rights",
    "democracy", "legitimacy", "sovereignty", "social contract", "deliberation",
    "normative", "ideology"]),
  (toL "Public Policy", kwSet [
    "public policy", "policy evaluation", "implementation", "regulation", "reform",
    "government program", "effectiveness", "cost-benefit", "stakeholder", "agenda setting"]),
  (toL "Political Methodology", kwSet [
    "methodology", "causal inference", "identification", "experiment", "survey",
    "measurement", "text analysis", "machine learning", "bayesian", "formal model"]),
  (toL "Security Studies", kwSet [
    "security", "defense", "military", "war", "conflict",
    "terrorism", "nuclear", "cyber", "intelligence", "strategy",
    "deterrence"]),
  (toL "Electoral Politics", kwSet [
    "election", "voting", "voter", "turnout", "campaign",
    "candidate", "party", "primary", "polling", "electoral",
    "ballot", "swing"])]

/-- The INTEREST_KEYWORDS table of `src/processor.py`: an insertion-ordered dict
mapping labels to keyword sets (set literals are modelled as their
source-order element lists, deduplicated, via `kwSet`). -/
def INTEREST_KEYWORDS : List (Str × List Str) := [
  (toL "Causal Inference", kwSet [
    "causal", "causality", "identification", "endogeneity", "exogenous",
    "treatment effect", "counterfactual", "selection", "confounding", "instrumental",
    "discontinuity", "difference-in-differences"]),
  (toL "Machine Learning/AI", kwSet [
    "machine learning", "artificial intelligence", "neural network", "deep learning", "prediction",
    "classification", "algorithm", "random forest", "lasso", "regularization",
    "cross-validation"]),
  (toL "Field Experiments (RCTs)", kwSet [
    "randomized", "rct", "experiment", "random assignment", "treatment",
    "control group", "field experiment", "randomization", "intent to treat"]),
  (toL "Natural Experiments", kwSet [
    "natural experiment", "quasi-experiment", "exogenous shock", "discontinuity", "regression discontinuity",
    "instrumental variable", "difference-in-differences", "event study"]),
  (toL "Structural Estimation", kwSet [
    "structural", "estimation", "model", "parameter", "simulation",
    "counterfactual", "welfare", "equilibrium", "dynamic"]),
  (toL "Theory/Mechanism Design", kwSet [
    "theory", "mechanism design", "game theory", "equilibrium", "incentive",
    "contract", "auction", "matching", "optimal", "strategic"]),
  (toL "Survey Experiments", kwSet [
    "survey experiment", "conjoint", "vignette", "factorial", "survey",
    "respondent", "treatment", "experimental"]),
  (toL "Policy Evaluation", kwSet [
    "policy evaluation", "program evaluation", "impact", "effectiveness", "cost-benefit",
    "welfare", "reform", "implementation"]),
  (toL "Inequality & Redistribution", kwSet [
    "inequality", "redistribution", "income distribution", "wealth", "gini",
    "top income", "bottom", "percentile", "mobility"]),
  (toL "Climate & Energy", kwSet [
    "climate", "carbon", "emission", "energy", "renewable",
    "fossil fuel", "temperature", "warming", "environmental", "green",
    "solar", "wind"]),
  (toL "Education Policy", kwSet [
    "education", "school", "student", "teacher", "test score",
    "achievement", "college", "university", "dropout", "graduation",
    "curriculum"]),
  (toL "Housing Markets", kwSet [
    "housing", "house price", "rent", "mortgage", "homeowner",
    "real estate", "foreclosure", "affordability", "zoning", "construction"]),
  (toL "Trade & Globalization", kwSet [
    "trade", "globalization", "export", "import", "tariff",
    "outsourcing", "supply chain", "multinational", "foreign", "comparative advantage"]),
  (toL "Monetary Policy", kwSet [
    "monetary policy", "central bank", "federal reserve", "interest rate", "inflation",
    "quantitative easing", "money supply", "liquidity"]),
  (toL "Fiscal Policy", kwSet [
    "fiscal policy", "government spending", "tax", "budget", "deficit",
    "debt", "stimulus", "austerity", "multiplier"]),
  (toL "Innovation & Technology", kwSet [
    "innovation", "technology", "patent", "r&d", "research",
    "startup", "entrepreneur", "productivity", "automation", "digital"]),
  (toL "Gender & Discrimination", kwSet [
    "gender", "discrimination", "wage gap", "women", "female",
    "bias", "diversity", "race", "racial", "minority",
    "affirmative action"]),
  (toL "Crime & Justice", kwSet [
    "crime", "criminal", "police", "prison", "incarceration",
    "recidivism", "sentencing", "justice", "law enforcement", "violence"]),
  (toL "Health & Healthcare", kwSet [
    "health", "healthcare", "hospital", "insurance", "mortality",
    "disease", "treatment", "physician", "patient", "medical"]),
  (toL "Immigration", kwSet [
    "immigration", "immigrant", "migration", "refugee", "border",
    "visa", "asylum", "deportation", "citizenship", "naturalization"]),
  (toL "Democratic Institutions", kwSet [
    "democracy", "democratic", "institution", "constitution", "rule of law",
    "checks and balances", "separation of powers", "accountability"]),
  (toL "Voting & Elections", kwSet [
    "voting", "election", "voter", "turnout", "ballot",
    "electoral", "campaign", "candidate", "polling", "swing voter"]),
  (toL "Conflict & Security", kwSet [
    "conflict", "war", "violence", "peace", "security",
    "military", "terrorism", "civil war", "interstate", "defense"]),
  (toL "Media & Information", kwSet [
    "media", "news", "information", "social media", "misinformation",
    "propaganda", "journalism", "press", "fake news", "polarization"]),
  (toL "Social Mobility", kwSet [
    "mobility", "intergenerational", "upward mobility", "opportunity", "socioeconomic",
    "class", "income mobility", "persistence"]),
  (toL "Poverty & Welfare", kwSet [
    "poverty", "welfare", "social assistance", "food stamps", "snap",
    "transfer", "safety net", "poor", "low income", "benefits"]),
  (toL "Regulation", kwSet [
    "regulation", "deregulation", "regulatory", "compliance", "rule",
    "standard", "enforcement", "agency", "policy"])]

/-- The METHOD_KEYWORDS table of `src/processor.py`: an insertion-ordered dict
mapping labels to keyword sets (set literals are modelled as their
source-order element lists, deduplicated, via `kwSet`). -/
def METHOD_KEYWORDS : List (Str × List Str) := [
  (toL "Difference-in-Differences", kwSet [
    "difference-in-differences", "diff-in-diff", "did", "parallel trends", "event study",
    "two-way fixed effects", "staggered", "treatment timing"]),
  (toL "Regression Discontinuity", kwSet [
    "regression discontinuity", "rdd", "discontinuity", "cutoff", "threshold",
    "running variable", "bandwidth", "local linear", "fuzzy rd", "sharp rd"]),
  (toL "Instrumental Variables", kwSet [
    "instrumental variable", "iv", "instrument", "two-stage", "2sls",
    "exclusion restriction", "first stage", "weak instrument"]),
  (toL "Randomized Controlled Trials", kwSet [
    "randomized", "rct", "experiment", "random assignment", "treatment group",
    "control group", "randomization", "experimental", "intent to treat"]),
  (toL "Structural Models", kwSet [
    "structural model", "structural estimation", "equilibrium model", "dynamic model", "simulation",
    "counterfactual simulation"]),
  (toL "Theoretical Models", kwSet [
    "theoretical model", "theory", "formal model", "game theory", "equilibrium",
    "mechanism", "optimal", "analytical"]),
  (toL "Machine Learning Methods", kwSet [
    "machine learning", "lasso", "random forest", "neural network", "causal forest",
    "double machine learning", "prediction", "cross-validation"]),
  (toL "Survey/Experimental Data", kwSet [
    "survey", "survey data", "experimental data", "questionnaire", "respondent",
    "sample", "response rate"]),
  (toL "Administrative Data", kwSet [
    "administrative data", "register data", "tax records", "census", "linked data",
    "population data", "registry"]),
  (toL "Time Series Analysis", kwSet [
    "time series", "var", "arima", "cointegration", "granger causality",
    "impulse response", "forecast", "autocorrelation"]),
  (toL "Panel Data Methods", kwSet [
    "panel data", "fixed effects", "random effects", "within estimator", "longitudinal",
    "repeated cross-section", "hausman test"]),
  (toL "Text Analysis/NLP", kwSet [
    "text analysis", "nlp", "natural language", "topic model", "sentiment",
    "word embedding", "text classification", "corpus"]),
  (toL "Network Analysis", kwSet [
    "network", "graph", "centrality", "clustering", "social network",
    "peer effects", "spillover", "contagion"]),
  (toL "Bayesian Methods", kwSet [
    "bayesian", "prior", "posterior", "mcmc", "credible interval",
    "hierarchical", "gibbs sampling"]),
  (toL "Qualitative Methods", kwSet [
    "qualitative", "interview", "case study", "ethnography", "discourse",
    "content analysis", "narrative", "interpretive"]),
  (toL "Case Studies", kwSet [
    "case study", "single case", "comparative case", "process tracing", "within-case",
    "cross-case"]),
  (toL "Process Tracing", kwSet [
    "process tracing", "causal mechanism", "within-case", "diagnostic", "smoking gun",
    "hoop test"])]

/-- The REGION_KEYWORDS table of `src/processor.py`: an insertion-ordered dict
mapping labels to keyword sets (set literals are modelled as their
source-order element lists, deduplicated, via `kwSet`). -/
def REGION_KEYWORDS : List (Str × List Str) := [
  (toL "Global/Comparative", kwSet [
    "global", "cross-country", "international", "comparative", "world"]),
  (toL "United States", kwSet [
    "united states", "us", "usa", "american", "federal"]),
  (toL "European Union", kwSet [
    "european union", "eu", "europe", "european", "eurozone"]),
  (toL "United Kingdom", kwSet [
    "united kingdom", "uk", "british", "england", "britain"]),
  (toL "China", kwSet [
    "china", "chinese", "beijing", "shanghai"]),
  (toL "India", kwSet [
    "india", "indian", "delhi", "mumbai"]),
  (toL "Latin America", kwSet [
    "latin america", "brazil", "mexico", "argentina", "chile",
    "colombia"]),
  (toL "Sub-Saharan Africa", kwSet [
    "africa", "african", "nigeria", "kenya", "south africa",
    "ethiopia"]),
  (toL "Middle East & North Africa", kwSet [
    "middle east", "mena", "arab", "egypt", "iran",
    "turkey"]),
  (toL "Southeast Asia", kwSet [
    "southeast asia", "indonesia", "vietnam", "thailand", "philippines"]),
  (toL "Global South", kwSet [
    "developing", "global south", "emerging", "low income", "third world"]),
  (toL "OECD Countries", kwSet [
    "oecd", "developed", "advanced economy", "high income"]),
  (toL "Emerging Markets", kwSet [
    "emerging market", "brics", "developing economy"])]

/-- One character of the text-cleaning step of `tokenize` in
`src/processor.py`: lowercase, then replace every character that is not a
word character, whitespace, or a hyphen by a space
(`re.sub(r'[^\w\s-]', ' ', text.lower())`, done characterwise). -/
def preChar (c : Char) : Char :=
  if c.toLower.isAlphanum || c.toLower == '_' || c.toLower.isWhitespace
      || c.toLower == '-' then
    c.toLower
  else ' '

/-- The cleaning pass of `tokenize`. -/
def preprocess (s : Str) : Str := s.map preChar

/-- Whitespace splitting (Python's `str.split()`), with `cur` the reversed
characters of the token being read. -/
def splitWsGo (cur : Str) : Str → List Str
  | [] => if cur.isEmpty then [] else [cur.reverse]
  | c :: cs =>
    if c.isWhitespace then
      if cur.isEmpty then splitWsGo [] cs else cur.reverse :: splitWsGo [] cs
    else splitWsGo (c :: cur) cs

/-- Python's `str.split()`: split on whitespace runs, no empty tokens. -/
def splitWs (s : Str) : List Str := splitWsGo [] s

/-- `tokenize` of `src/processor.py`: clean, split, then drop stopwords
and tokens of length ≤ 2. -/
def tokenize (s : Str) : List Str :=
  (splitWs (preprocess s)).filter fun t => !STOPWORDS.contains t && decide (2 < t.length)

/-- Python's substring test `needle in hay`. -/
def containsSub (hay needle : Str) : Bool :=
  hay.tails.any fun t => needle.isPrefixOf t

/-- Lookup in one of the taxonomy dicts (`d[k]` as `Option`). -/
def lookupKw (d : List (Str × List Str)) (k : Str) : Option (List Str) :=
  (d.find? fun e => e.1 == k).map fun e => e.2

/-- Python's `d.get(k, set())` on a taxonomy dict. -/
def getKw (d : List (Str × List Str)) (k : Str) : List Str :=
  (lookupKw d k).getD []

/-- A paper-side concept: a classified topic name with a confidence value
(the scorer reads only the name). -/
structure Concept where
  name : Str
  confidence : ℚ
deriving DecidableEq

/-- `UserProfile` of `src/processor.py`. -/
structure UserProfile where
  academic_level : Str
  primary_field : Str
  secondary_interests : List Str
  preferred_methodology : List Str
  regional_focus : Str
  seed_authors : List Str
  methodological_lean : ℚ
deriving DecidableEq

/-- A paper record, with the fields `SemanticMatcher` reads from the
paper dict (plus `cited_by_count`, carried through by `rank_papers`). -/
structure Paper where
  title : Str
  abstract : Str
  concepts : List Concept
  journal_tier : Int
  cited_by_count : Int
  authors : List Str
deriving DecidableEq

/-- `MatchResult` of `src/processor.py`. -/
structure MatchResult where
  relevance_score : ℚ
  field_score : ℚ
  interest_score : ℚ
  method_score : ℚ
  region_score : ℚ
  author_match : Bool
  matched_interests : List Str
  matched_methods : List Str
  matched_keywords : List Str
deriving DecidableEq

/-- `SemanticMatcher.FIELD_WEIGHT`. -/
def FIELD_WEIGHT : ℚ := 3/10

/-- `SemanticMatcher.INTEREST_WEIGHT`. -/
def INTEREST_WEIGHT : ℚ := 7/20

/-- `SemanticMatcher.METHOD_WEIGHT`. -/
def METHOD_WEIGHT : ℚ := 1/4

/-- `SemanticMatcher.REGION_WEIGHT`. -/
def REGION_WEIGHT : ℚ := 1/10

/-- `SemanticMatcher.AUTHOR_BONUS`. -/
def AUTHOR_BONUS : ℚ := 1/2

/-- `SemanticMatcher.TIER_BONUS.get(t, 0)`: the tier-4 entry and the
dict-lookup default are both 0. -/
def tierBonus (t : Int) : ℚ :=
  if t = 1 then 3/10 else if t = 2 then 3/20 else if t = 3 then 1/20 else 0

/-- One keyword test of `_keyword_overlap_score`: a multi-word keyword is
checked as a substring of the joined token text, a single-word keyword by
token-set membership. -/
def matchKw (tokens : List Str) (textStr : Str) (k : Str) : Bool :=
  if k.contains ' ' then containsSub textStr k else tokens.contains k

/-- `" ".join(l)`. -/
def joinSp : List Str → Str
  | [] => []
  | [t] => t
  | t :: u :: ts => t ++ ' ' :: joinSp (u :: ts)

/-- `SemanticMatcher._keyword_overlap_score`: returns the bounded overlap
score and the matched keywords. -/
def overlap (tokens kws : List Str) : ℚ × List Str :=
  if kws.isEmpty then (0, [])
  else if (kws.filter (matchKw tokens (joinSp tokens))).isEmpty then (0, [])
  else (min 1 (((kws.filter (matchKw tokens (joinSp tokens))).length : ℚ)
          / max 3 ((kws.length : ℚ) * (1/5))),
        kws.filter (matchKw tokens (joinSp tokens)))

/-- `" ".join(c.get("name", "") for c in concepts)`. -/
def conceptText (cs : List Concept) : Str := joinSp (cs.map fun c => c.name)

/-- `full_text` of `match_paper`: title, abstract and concept names,
space-separated. -/
def fullText (p : Paper) : Str :=
  p.title ++ ' ' :: p.abstract ++ ' ' :: conceptText p.concepts

/-- `token_set = set(tokenize(full_text))`, modelled as first-occurrence
deduplication of the token list.  This fixes one canonical enumeration of
the set; Python itself iterates the set in unspecified hash order, which
matters only where the enumeration is joined into a text for multi-word
matching.  Properties that depend on that order are stated over every
admissible enumeration via `matchPaperOrd` below. -/
def tokenSet (p : Paper) : List Str := dedupF (tokenize (fullText p))

/-- The loop of `_compute_interest_scores`: accumulate the per-interest
overlap scores and the interests with at least one keyword match. -/
def interestLoop (tokens : List Str) : List Str → ℚ × List Str
  | [] => (0, [])
  | i :: rest =>
    if ((overlap tokens (getKw INTEREST_KEYWORDS i)).2).isEmpty then interestLoop tokens rest
    else ((overlap tokens (getKw INTEREST_KEYWORDS i)).1 + (interestLoop tokens rest).1,
          i :: (interestLoop tokens rest).2)

/-- `SemanticMatcher._compute_interest_scores`. -/
def interestScores (prof : UserProfile) (tokens : List Str) : ℚ × List Str :=
  if prof.secondary_interests.isEmpty then (0, [])
  else (min 1 ((interestLoop tokens prof.secondary_interests).1
          / (prof.secondary_interests.length : ℚ) * (3/2)),
        (interestLoop tokens prof.secondary_interests).2)

/-- The loop of `_compute_method_scores`. -/
def methodLoop (tokens : List Str) : List Str → ℚ × List Str
  | [] => (0, [])
  | m :: rest =>
    if ((overlap tokens (getKw METHOD_KEYWORDS m)).2).isEmpty then methodLoop tokens rest
    else ((overlap tokens (getKw METHOD_KEYWORDS m)).1 + (methodLoop tokens rest).1,
          m :: (methodLoop tokens rest).2)

/-- `SemanticMatcher._compute_method_scores`. -/
def methodScores (prof : UserProfile) (tokens : List Str) : ℚ × List Str :=
  if prof.preferred_methodology.isEmpty then (0, [])
  else (min 1 ((methodLoop tokens prof.preferred_methodology).1
          / (prof.preferred_methodology.length : ℚ) * (3/2)),
        (methodLoop tokens prof.preferred_methodology).2)

/-- `SemanticMatcher._compute_field_score`. -/
def fieldScores (prof : UserProfile) (tokens : List Str) : ℚ × List Str :=
  overlap tokens (getKw FIELD_KEYWORDS prof.primary_field)

/-- `SemanticMatcher._compute_region_score`. -/
def regionScoreOf (prof : UserProfile) (tokens : List Str) : ℚ :=
  (overlap tokens (getKw REGION_KEYWORDS prof.regional_focus)).1

/-- Python's `str.lower()`. -/
def lowerStr (s : Str) : Str := s.map Char.toLower

/-- `SemanticMatcher._check_author_match`: case-insensitive mutual
substring test between seed authors and paper authors. -/
def checkAuthorMatch (seeds authors : List Str) : Bool :=
  if seeds.isEmpty then false
  else (seeds.map lowerStr).any fun s => (authors.map lowerStr).any fun a =>
    containsSub a s || containsSub s a

/-- `base_score` of `match_paper` after both bonuses: the weighted sum of
the four component scores, plus the author bonus, plus the journal-tier
bonus. -/
def rawScore (prof : UserProfile) (p : Paper) : ℚ :=
  FIELD_WEIGHT * (fieldScores prof (tokenSet p)).1
    + INTEREST_WEIGHT * (interestScores prof (tokenSet p)).1
    + METHOD_WEIGHT * (methodScores prof (tokenSet p)).1
    + REGION_WEIGHT * regionScoreOf prof (tokenSet p)
    + (if checkAuthorMatch prof.seed_authors p.authors then AUTHOR_BONUS else 0)
    + tierBonus p.journal_tier

/-- `SemanticMatcher.match_paper`. -/
def matchPaper (prof : UserProfile) (p : Paper) : MatchResult :=
  { relevance_score := round1 (min 10 (max 1 (rawScore prof p * 10)))
    field_score := round2 (fieldScores prof (tokenSet p)).1
    interest_score := round2 (interestScores prof (tokenSet p)).1
    method_score := round2 (methodScores prof (tokenSet p)).1
    region_score := round2 (regionScoreOf prof (tokenSet p))
    author_match := checkAuthorMatch prof.seed_authors p.authors
    matched_interests := (interestScores prof (tokenSet p)).2
    matched_methods := (methodScores prof (tokenSet p)).2
    matched_keywords := ((fieldScores prof (tokenSet p)).2).take 5 }

/-- `base_score` of `match_paper` with the token-set enumeration made
explicit: `ts` stands for the list in which Python's hash-ordered
`set(tokens)` happens to be iterated (an admissible `ts` is any
duplicate-free listing of the token set, i.e. any permutation of
`tokenSet p`).  The source leaves this order unspecified, so properties
that depend on it hold of the program only if they hold for every
admissible `ts`. -/
def rawScoreOrd (prof : UserProfile) (p : Paper) (ts : List Str) : ℚ :=
  FIELD_WEIGHT * (fieldScores prof ts).1
    + INTEREST_WEIGHT * (interestScores prof ts).1
    + METHOD_WEIGHT * (methodScores prof ts).1
    + REGION_WEIGHT * regionScoreOf prof ts
    + (if checkAuthorMatch prof.seed_authors p.authors then AUTHOR_BONUS else 0)
    + tierBonus p.journal_tier

/-- `SemanticMatcher.match_paper` with the token-set enumeration made
explicit (see `rawScoreOrd`); `matchPaper` is the instance at the
canonical insertion-ordered enumeration `tokenSet p`. -/
def matchPaperOrd (prof : UserProfile) (p : Paper) (ts : List Str) : MatchResult :=
  { relevance_score := round1 (min 10 (max 1 (rawScoreOrd prof p ts * 10)))
    field_score := round2 (fieldScores prof ts).1
    interest_score := round2 (interestScores prof ts).1
    method_score := round2 (methodScores prof ts).1
    region_score := round2 (regionScoreOf prof ts)
    author_match := checkAuthorMatch prof.seed_authors p.authors
    matched_interests := (interestScores prof ts).2
    matched_methods := (methodScores prof ts).2
    matched_keywords := ((fieldScores prof ts).2).take 5 }

/-- An element of the list returned by `rank_papers`: the input paper
enriched with its match data. -/
structure Enriched where
  paper : Paper
  result : MatchResult
deriving DecidableEq

/-- One insertion step of a stable descending sort on
`relevance_score` (Python's `list.sort(key=..., reverse=True)` is a
stable sort; any stable sort computes the same list). -/
def insertDesc (x : Enriched) : List Enriched → List Enriched
  | [] => [x]
  | y :: ys =>
    if y.result.relevance_score ≤ x.result.relevance_score then x :: y :: ys
    else y :: insertDesc x ys

/-- Stable descending sort on `relevance_score`. -/
def sortDesc : List Enriched → List Enriched
  | [] => []
  | x :: xs => insertDesc x (sortDesc xs)

/-- `SemanticMatcher.rank_papers`: score every paper, then sort by
descending relevance score (stable). -/
def rankPapers (prof : UserProfile) (papers : List Paper) : List Enriched :=
  sortDesc (papers.map fun p => ⟨p, matchPaper prof p⟩)

/-! ### Definitions modelled from the spec, for comparison against the code -/

/-- Modelled from the spec (§4.5 step 3): the piecewise-linear calibration
curve with knots at raw = 0.10, 0.18, 0.30, 0.45 mapping onto the 1–10
scale, clamped to [1, 10].  The code has no such curve; this definition
exists only to compare the spec's words with the implementation. -/
def specCalibration (r : ℚ) : ℚ :=
  min 10 (max 1 (
    if 9/20 ≤ r then 8 + (r - 9/20) / (11/20) * 2
    else if 3/10 ≤ r then 13/2 + (r - 3/10) / (3/20) * (3/2)
    else if 9/50 ≤ r then 5 + (r - 9/50) / (3/25) * (3/2)
    else if 1/10 ≤ r then 7/2 + (r - 1/10) / (2/25) * (3/2)
    else 1 + r / (1/10) * (5/2)))

/-- Modelled from the spec (§4.4): the position-decay factor
`max(0.5, 1 − 0.08·i)` for the 0-indexed interest position `i`. -/
def specDecay (i : ℕ) : ℚ := max (1/2) (1 - (2/25) * i)

/-- Modelled from the spec (§4.4): the claimed interest-score formula —
per-interest cluster scores weighted by position decay, combined as
`0.6·max + 0.4·average`, with a breadth bonus ×1.25 for ≥3 matched
interests and ×1.12 for ≥2.  The code computes none of this; the
definition exists only for comparison. -/
def specInterestScore (prof : UserProfile) (tokens : List Str) : ℚ :=
  if prof.secondary_interests.isEmpty then 0
  else
    ((3/5) * ((prof.secondary_interests.enum.map fun e =>
        specDecay e.1 * (overlap tokens (getKw INTEREST_KEYWORDS e.2)).1).foldr max 0)
      + (2/5) * ((prof.secondary_interests.enum.map fun e =>
        specDecay e.1 * (overlap tokens (getKw INTEREST_KEYWORDS e.2)).1).foldr (· + ·) 0
          / (prof.secondary_interests.length : ℚ)))
    * (if 3 ≤ (prof.secondary_interests.filter fun i =>
          !((overlap tokens (getKw INTEREST_KEYWORDS i)).2).isEmpty).length then 5/4
       else if 2 ≤ (prof.secondary_interests.filter fun i =>
          !((overlap tokens (getKw INTEREST_KEYWORDS i)).2).isEmpty).length then 28/25
       else 1)

/-- The ordering the spec's tie-break rule requires of a ranked list:
adjacent elements are either strictly descending in relevance score, or
tied on score with the more-cited paper first. -/
def citedTieOrdered : List Enriched → Bool
  | [] => true
  | [_] => true
  | a :: b :: r =>
    (decide (b.result.relevance_score < a.result.relevance_score)
      || (decide (a.result.relevance_score = b.result.relevance_score)
          && decide (b.paper.cited_by_count ≤ a.paper.cited_by_count)))
    && citedTieOrdered (b :: r)

/-! ### Concrete inputs used by the per-claim counterexamples and witnesses -/

/-- A profile whose only signal is the seed author "smith". -/
def c2Profile : UserProfile := ⟨[], [], [], [], [], [toL "smith"], 1/2⟩

/-- A textless tier-4 paper authored by "smith": its raw score is exactly
the author bonus 0.5. -/
def c2Paper : Paper := ⟨[], [], [], 4, 0, [toL "smith"]⟩

/-- An entirely empty profile (no taxonomy signal at all). -/
def c3Profile : UserProfile := ⟨[], [], [], [], [], [], 1/2⟩

/-- A textless tier-4 paper with no citations. -/
def c3PaperLo : Paper := ⟨[], [], [], 4, 0, []⟩

/-- A textless tier-4 paper with 100 citations. -/
def c3PaperHi : Paper := ⟨[], [], [], 4, 100, []⟩

/-- A profile seeded with the author "smith". -/
def c4Profile : UserProfile := ⟨[], [], [], [], [], [toL "smith"], 1/2⟩

/-- A tier-1 paper with empty abstract and no concepts, authored by
"smith": it scores 8.0 purely from the author and tier bonuses. -/
def c4Paper : Paper := ⟨[], [], [], 1, 0, [toL "smith"]⟩

/-- A profile with real taxonomy entries but no seed authors. -/
def c4wProfile : UserProfile :=
  ⟨[], toL "Labor Economics", [toL "Causal Inference"], [], toL "United States", [], 1/2⟩

/-- A fully empty-text tier-1 paper with an unmatched author. -/
def c4wPaper : Paper := ⟨[], [], [], 1, 50, [toL "Doe"]⟩

/-- A profile whose single interest is Causal Inference. -/
def c5Profile : UserProfile := ⟨[], [], [toL "Causal Inference"], [], [], [], 1/2⟩

/-- A textless tier-4 paper to which a concept will be added. -/
def c5Paper : Paper := ⟨[], [], [], 4, 0, []⟩

/-- A profile whose single interest is Field Experiments (RCTs). -/
def c5xProfile : UserProfile :=
  ⟨[], [], [toL "Field Experiments (RCTs)"], [], [], [], 1/2⟩

/-- A paper whose four tokens form, in insertion order, the two phrase
keywords "control group" and "random assignment" of the Field
Experiments (RCTs) cluster (two hits, interest score 1.0). -/
def c5xPaper : Paper := ⟨toL "control group random assignment", [], [], 4, 0, []⟩

/-- An admissible enumeration of the token set of `c5xPaper` after the
concept "rct" is appended: a duplicate-free listing of the same five
tokens in which neither phrase is contiguous, so only the single-word
keyword "rct" still hits. -/
def c5xTs : List Str :=
  [toL "control", toL "rct", toL "group", toL "assignment", toL "random"]

/-- A profile whose single interest is Causal Inference. -/
def c6Profile : UserProfile := ⟨[], [], [toL "Causal Inference"], [], [], [], 1/2⟩

/-- A paper whose only token is "causal": exactly one keyword hit in the
Causal Inference cluster. -/
def c6Paper : Paper := ⟨toL "causal", [], [], 4, 0, []⟩

/-- A profile whose single interest is Immigration. -/
def c6wProfile : UserProfile := ⟨[], [], [toL "Immigration"], [], [], [], 1/2⟩

/-- A paper with two tokens hitting the Immigration cluster. -/
def c6wPaper : Paper := ⟨toL "refugee migration", [], [], 4, 0, []⟩

/-- A profile whose field, interest, method and region labels are all
absent from the taxonomy. -/
def c8Profile : UserProfile :=
  ⟨[], toL "Sociology", [toL "Basket Weaving"], [toL "Astrology"], toL "Atlantis", [], 1/2⟩

/-- An ordinary one-token paper. -/
def c8Paper : Paper := ⟨toL "labor", [], [], 1, 5, []⟩

/-- A profile whose interests will be supplied per-instantiation. -/
def c9Profile : UserProfile := ⟨[], [], [], [], [], [], 1/2⟩

/-- A paper whose only token "refugee" matches the Immigration cluster
and nothing in the Causal Inference cluster. -/
def c9Paper : Paper := ⟨toL "refugee", [], [], 4, 0, []⟩

/-- A profile whose only signal is the seed author "card". -/
def c10Profile : UserProfile := ⟨[], [], [], [], [], [toL "card"], 1/2⟩

/-- A textless tier-4 paper authored by "David Card". -/
def c10Paper : Paper := ⟨[], [], [], 4, 0, [toL "David Card"]⟩
/-! ### Rounding lemmas -/

theorem floor_le_rhe (x : ℚ) : ⌊x⌋ ≤ rhe x := by
  rw [rhe]
  split_ifs <;> omega

theorem rhe_le_floor_add_one (x : ℚ) : rhe x ≤ ⌊x⌋ + 1 := by
  rw [rhe]
  split_ifs <;> omega

theorem rhe_mono {x y : ℚ} (h : x ≤ y) : rhe x ≤ rhe y := by
  rcases eq_or_lt_of_le (Int.floor_mono h) with heq | hlt
  · rw [rhe, rhe, heq]
    have hd : x - (⌊y⌋ : ℚ) ≤ y - (⌊y⌋ : ℚ) := by linarith
    split_ifs <;> first | omega | linarith
  · calc rhe x ≤ ⌊x⌋ + 1 := rhe_le_floor_add_one x
      _ ≤ ⌊y⌋ := hlt
      _ ≤ rhe y := floor_le_rhe y

theorem rhe_intCast (n : ℤ) : rhe ((n : ℚ)) = n := by
  rw [rhe, Int.floor_intCast]
  norm_num

theorem round1_mono {x y : ℚ} (h : x ≤ y) : round1 x ≤ round1 y := by
  rw [round1, round1]
  have := rhe_mono (show x * 10 ≤ y * 10 by linarith)
  have hc : ((rhe (x * 10) : ℚ)) ≤ ((rhe (y * 10) : ℚ)) := by exact_mod_cast this
  linarith

theorem round1_intCast (n : ℤ) : round1 ((n : ℚ)) = (n : ℚ) := by
  rw [round1]
  have : ((n : ℚ)) * 10 = (((n * 10 : ℤ)) : ℚ) := by push_cast; ring
  rw [this, rhe_intCast]
  push_cast
  ring

theorem int_le_round1 {n : ℤ} {x : ℚ} (h : (n : ℚ) ≤ x) : (n : ℚ) ≤ round1 x := by
  have := round1_mono h
  rwa [round1_intCast] at this

theorem round1_le_int {n : ℤ} {x : ℚ} (h : x ≤ (n : ℚ)) : round1 x ≤ (n : ℚ) := by
  have := round1_mono h
  rwa [round1_intCast] at this

theorem round2_mono {x y : ℚ} (h : x ≤ y) : round2 x ≤ round2 y := by
  rw [round2, round2]
  have := rhe_mono (show x * 100 ≤ y * 100 by linarith)
  have hc : ((rhe (x * 100) : ℚ)) ≤ ((rhe (y * 100) : ℚ)) := by exact_mod_cast this
  linarith

theorem round2_intCast (n : ℤ) : round2 ((n : ℚ)) = (n : ℚ) := by
  rw [round2]
  have : ((n : ℚ)) * 100 = (((n * 100 : ℤ)) : ℚ) := by push_cast; ring
  rw [this, rhe_intCast]
  push_cast
  ring

theorem round2_zero : round2 0 = 0 := by
  have := round2_intCast 0
  simpa using this

/-- The common shape of `match_paper`'s final normalisation: after
clamping to `[1, 10]` and rounding to one decimal, the result stays in
`[1, 10]`. -/
theorem clamp_round_bounds (x : ℚ) :
    1 ≤ round1 (min 10 (max 1 x)) ∧ round1 (min 10 (max 1 x)) ≤ 10 := by
  have h1 : (1 : ℚ) ≤ min 10 (max 1 x) := le_min (by norm_num) (le_max_left 1 x)
  have h2 : min 10 (max 1 x) ≤ 10 := min_le_left 10 (max 1 x)
  constructor
  · have := int_le_round1 (n := 1) (by exact_mod_cast h1)
    exact_mod_cast this
  · have := round1_le_int (n := 10) (by exact_mod_cast h2)
    exact_mod_cast this

/-! ### Basic facts about the keyword-overlap score -/

theorem overlap_nonneg (t k : List Str) : 0 ≤ (overlap t k).1 := by
  rw [overlap]
  split_ifs with h1 h2
  · norm_num
  · norm_num
  · refine le_min (by norm_num) (div_nonneg (by positivity) ?_)
    exact le_trans (by norm_num) (le_max_left 3 _)

theorem overlap_fst_zero_of_snd_nil {t k : List Str}
    (h : (overlap t k).2 = []) : (overlap t k).1 = 0 := by
  rw [overlap] at *
  split_ifs at * with h1 h2
  · rfl
  · rfl
  · exfalso
    rw [List.isEmpty_iff] at h2
    exact h2 h

theorem interestLoop_nonneg (t : List Str) (l : List Str) :
    0 ≤ (interestLoop t l).1 := by
  induction l with
  | nil => simp [interestLoop]
  | cons i rest ih =>
    rw [interestLoop]
    split_ifs
    · exact ih
    · have := overlap_nonneg t (getKw INTEREST_KEYWORDS i)
      simp only []
      linarith

theorem methodLoop_nonneg (t : List Str) (l : List Str) :
    0 ≤ (methodLoop t l).1 := by
  induction l with
  | nil => simp [methodLoop]
  | cons m rest ih =>
    rw [methodLoop]
    split_ifs
    · exact ih
    · have := overlap_nonneg t (getKw METHOD_KEYWORDS m)
      simp only []
      linarith

theorem interestScores_nonneg (prof : UserProfile) (t : List Str) :
    0 ≤ (interestScores prof t).1 := by
  rw [interestScores]
  split_ifs with h
  · norm_num
  · refine le_min (by norm_num) ?_
    have h1 := interestLoop_nonneg t prof.secondary_interests
    have h2 : (0 : ℚ) ≤ (prof.secondary_interests.length : ℚ) := by positivity
    positivity

theorem methodScores_nonneg (prof : UserProfile) (t : List Str) :
    0 ≤ (methodScores prof t).1 := by
  rw [methodScores]
  split_ifs with h
  · norm_num
  · refine le_min (by norm_num) ?_
    have h1 := methodLoop_nonneg t prof.preferred_methodology
    positivity

theorem tierBonus_nonneg (t : Int) : 0 ≤ tierBonus t := by
  rw [tierBonus]
  split_ifs <;> norm_num

theorem tierBonus_le (t : Int) : tierBonus t ≤ 3/10 := by
  rw [tierBonus]
  split_ifs <;> norm_num

/-! ### Tokenisation under appending text -/

theorem preChar_space : preChar ' ' = ' ' := by decide

theorem space_isWhitespace : (' ' : Char).isWhitespace = true := by decide

theorem splitWsGo_append (a : Str) : ∀ (cur : Str) (b : Str),
    splitWsGo cur (a ++ ' ' :: b) = splitWsGo cur a ++ splitWsGo [] b := by
  induction a with
  | nil =>
    intro cur b
    rw [List.nil_append]
    conv_lhs => rw [splitWsGo]
    rw [if_pos space_isWhitespace]
    rw [show splitWsGo cur [] = if cur.isEmpty then [] else [cur.reverse] from rfl]
    split_ifs <;> simp
  | cons c cs ih =>
    intro cur b
    rw [List.cons_append]
    conv_lhs => rw [splitWsGo]
    conv_rhs => rw [splitWsGo]
    by_cases hc : c.isWhitespace = true
    · rw [if_pos hc, if_pos hc]
      by_cases hcur : cur.isEmpty = true
      · rw [if_pos hcur, if_pos hcur, ih]
      · rw [if_neg hcur, if_neg hcur, ih, List.cons_append]
    · rw [if_neg hc, if_neg hc, ih]

theorem tokenize_append (a b : Str) :
    tokenize (a ++ ' ' :: b) = tokenize a ++ tokenize b := by
  have h1 : preprocess (a ++ ' ' :: b) = preprocess a ++ ' ' :: preprocess b := by
    simp [preprocess, preChar_space]
  simp only [tokenize, splitWs, h1, splitWsGo_append, List.filter_append]

theorem tokenize_nil : tokenize [] = [] := by decide

/-! ### Deduplication (the model of Python sets) -/

theorem dedupGo_append {α : Type} [DecidableEq α] (a : List α) : ∀ (seen b : List α),
    ∃ c, dedupGo seen (a ++ b) = dedupGo seen a ++ c := by
  induction a with
  | nil =>
    intro seen b
    exact ⟨dedupGo seen b, by simp [dedupGo]⟩
  | cons x xs ih =>
    intro seen b
    rw [List.cons_append, dedupGo, dedupGo]
    by_cases hx : x ∈ seen
    · rw [if_pos hx, if_pos hx]
      exact ih seen b
    · rw [if_neg hx, if_neg hx]
      obtain ⟨c, hc⟩ := ih (x :: seen) b
      exact ⟨c, by rw [hc, List.cons_append]⟩

theorem mem_dedupGo {α : Type} [DecidableEq α] {y : α} (l : List α) : ∀ (seen : List α),
    y ∈ dedupGo seen l ↔ y ∈ l ∧ y ∉ seen := by
  induction l with
  | nil => intro seen; simp [dedupGo]
  | cons x xs ih =>
    intro seen
    rw [dedupGo]
    by_cases hx : x ∈ seen
    · rw [if_pos hx, ih seen]
      simp only [List.mem_cons]
      constructor
      · rintro ⟨h1, h2⟩
        exact ⟨Or.inr h1, h2⟩
      · rintro ⟨h1, h2⟩
        rcases h1 with rfl | h1
        · exact absurd hx h2
        · exact ⟨h1, h2⟩
    · rw [if_neg hx]
      simp only [List.mem_cons, ih (x :: seen)]
      constructor
      · rintro (rfl | ⟨h1, h2⟩)
        · exact ⟨Or.inl rfl, hx⟩
        · exact ⟨Or.inr h1, fun hy => h2 (Or.inr hy)⟩
      · rintro ⟨h1, h2⟩
        rcases h1 with rfl | h1
        · exact Or.inl rfl
        · by_cases hyx : y = x
          · exact Or.inl hyx
          · exact Or.inr ⟨h1, fun hy => hy.elim hyx h2⟩

theorem mem_dedupF {α : Type} [DecidableEq α] {y : α} {l : List α} :
    y ∈ dedupF l ↔ y ∈ l := by
  rw [dedupF, mem_dedupGo]
  simp

/-! ### Space-joining and the substring test -/

theorem joinSp_append (l : List Str) : ∀ (m : List Str),
    ∃ u, joinSp (l ++ m) = joinSp l ++ u := by
  induction l with
  | nil => intro m; exact ⟨joinSp m, by simp [joinSp]⟩
  | cons t ts ih =>
    intro m
    cases ts with
    | nil =>
      cases m with
      | nil => exact ⟨[], by simp⟩
      | cons m1 ms => exact ⟨' ' :: joinSp (m1 :: ms), by simp [joinSp]⟩
    | cons t2 ts2 =>
      obtain ⟨u, hu⟩ := ih m
      refine ⟨u, ?_⟩
      rw [List.cons_append, List.cons_append, joinSp, ← List.cons_append t2 ts2 m, hu,
        joinSp]
      simp [List.append_assoc]

theorem joinSp_append_singleton (c : Str) : ∀ (l : List Str), l ≠ [] →
    joinSp (l ++ [c]) = joinSp l ++ ' ' :: c := by
  intro l
  induction l with
  | nil => intro h; exact absurd rfl h
  | cons t ts ih =>
    intro _
    cases ts with
    | nil => simp [joinSp]
    | cons t2 ts2 =>
      rw [List.cons_append, List.cons_append, joinSp, ← List.cons_append t2 ts2 [c],
        ih (by simp), joinSp]
      simp [List.append_assoc]

theorem isPrefixOf_append {n : Str} : ∀ {t u : Str},
    n.isPrefixOf t = true → n.isPrefixOf (t ++ u) = true := by
  induction n with
  | nil => intro t u _; simp [List.isPrefixOf]
  | cons a as ih =>
    intro t u h
    cases t with
    | nil => simp [List.isPrefixOf] at h
    | cons b bs =>
      rw [List.cons_append]
      simp only [List.isPrefixOf, Bool.and_eq_true] at h ⊢
      exact ⟨h.1, ih h.2⟩

theorem containsSub_append {n u : Str} : ∀ {s : Str},
    containsSub s n = true → containsSub (s ++ u) n = true := by
  intro s
  induction s with
  | nil =>
    intro h
    rw [containsSub] at h
    simp only [List.tails, List.any_cons, List.any_nil, Bool.or_false] at h
    cases n with
    | nil =>
      rw [List.nil_append, containsSub]
      cases u with
      | nil => decide
      | cons c cs =>
        rw [List.tails_cons, List.any_cons]
        simp [List.isPrefixOf]
    | cons c cs => simp [List.isPrefixOf] at h
  | cons c cs ih =>
    intro h
    rw [containsSub, List.tails_cons, List.any_cons] at h
    rw [List.cons_append, containsSub, List.tails_cons, List.any_cons]
    simp only [Bool.or_eq_true] at h ⊢
    rcases h with h1 | h2
    · left
      rw [show c :: (cs ++ u) = (c :: cs) ++ u from rfl]
      exact isPrefixOf_append h1
    · right
      have := ih (show containsSub cs n = true by rw [containsSub]; exact h2)
      rw [containsSub] at this
      exact this

theorem contains_iff_memL {l : List Str} {k : Str} : l.contains k = true ↔ k ∈ l := by
  simp [List.contains, List.elem_iff]
/-! ### Monotonicity of the overlap score under appending tokens -/

theorem filter_length_le_of_imp {α : Type} (l : List α) (p q : α → Bool)
    (h : ∀ x ∈ l, p x = true → q x = true) :
    (l.filter p).length ≤ (l.filter q).length := by
  induction l with
  | nil => simp
  | cons x xs ih =>
    have ih1 := ih (fun y hy hpy => h y (List.mem_cons_of_mem x hy) hpy)
    rw [List.filter_cons, List.filter_cons]
    by_cases hp : p x = true
    · rw [if_pos hp, if_pos (h x (List.mem_cons_self x xs) hp)]
      simpa using ih1
    · rw [if_neg hp]
      split_ifs
      · simp only [List.length_cons]
        exact le_trans ih1 (Nat.le_succ _)
      · exact ih1

theorem filter_ne_nil_of_imp {α : Type} (l : List α) (p q : α → Bool)
    (h : ∀ x ∈ l, p x = true → q x = true) (hne : l.filter p ≠ []) :
    l.filter q ≠ [] := by
  intro hq
  apply hne
  rw [List.filter_eq_nil_iff] at hq ⊢
  intro a ha hpa
  exact hq a ha (h a ha hpa)

theorem matchKw_extend {t c : List Str} {k : Str}
    (h : matchKw t (joinSp t) k = true) :
    matchKw (t ++ c) (joinSp (t ++ c)) k = true := by
  rw [matchKw] at h ⊢
  by_cases hs : k.contains ' ' = true
  · rw [if_pos hs] at h ⊢
    obtain ⟨u, hu⟩ := joinSp_append t c
    rw [hu]
    exact containsSub_append h
  · rw [if_neg hs] at h ⊢
    rw [contains_iff_memL] at h ⊢
    exact List.mem_append.mpr (Or.inl h)

theorem overlap_fst_le_append (t c kws : List Str) :
    (overlap t kws).1 ≤ (overlap (t ++ c) kws).1 := by
  rw [overlap, overlap]
  by_cases hk : kws.isEmpty = true
  · rw [if_pos hk, if_pos hk]
  · rw [if_neg hk, if_neg hk]
    have himp : ∀ x ∈ kws, matchKw t (joinSp t) x = true →
        matchKw (t ++ c) (joinSp (t ++ c)) x = true :=
      fun x _ hx => matchKw_extend hx
    by_cases hm : (kws.filter (matchKw t (joinSp t))).isEmpty = true
    · rw [if_pos hm]
      split_ifs with h2
      · exact le_refl 0
      · refine le_min (by norm_num) (div_nonneg (by positivity) ?_)
        exact le_trans (by norm_num) (le_max_left 3 _)
    · rw [if_neg hm]
      have hne : kws.filter (matchKw t (joinSp t)) ≠ [] :=
        fun hh => hm (by rw [hh]; rfl)
      have hne2 : kws.filter (matchKw (t ++ c) (joinSp (t ++ c))) ≠ [] :=
        filter_ne_nil_of_imp kws _ _ himp hne
      rw [if_neg (by rw [List.isEmpty_iff]; exact hne2)]
      have hlen : ((kws.filter (matchKw t (joinSp t))).length : ℚ)
          ≤ ((kws.filter (matchKw (t ++ c) (joinSp (t ++ c)))).length : ℚ) := by
        exact_mod_cast filter_length_le_of_imp kws _ _ himp
      have hden : (0 : ℚ) < max 3 ((kws.length : ℚ) * (1/5)) :=
        lt_of_lt_of_le (by norm_num) (le_max_left 3 _)
      exact min_le_min (le_refl 1) (by gcongr)

theorem overlap_snd_ne_nil_append {t kws : List Str} (c : List Str)
    (h : (overlap t kws).2 ≠ []) : (overlap (t ++ c) kws).2 ≠ [] := by
  rw [overlap] at h
  rw [overlap]
  by_cases hk : kws.isEmpty = true
  · rw [if_pos hk] at h
    exact absurd rfl h
  · rw [if_neg hk] at h
    rw [if_neg hk]
    by_cases hm : (kws.filter (matchKw t (joinSp t))).isEmpty = true
    · rw [if_pos hm] at h
      exact absurd rfl h
    · have himp : ∀ x ∈ kws, matchKw t (joinSp t) x = true →
          matchKw (t ++ c) (joinSp (t ++ c)) x = true :=
        fun x _ hx => matchKw_extend hx
      have hne : kws.filter (matchKw t (joinSp t)) ≠ [] :=
        fun hh => hm (by rw [hh]; rfl)
      have hne2 : kws.filter (matchKw (t ++ c) (joinSp (t ++ c))) ≠ [] :=
        filter_ne_nil_of_imp kws _ _ himp hne
      rw [if_neg (by rw [List.isEmpty_iff]; exact hne2)]
      exact hne2

theorem interestLoop_le_append (t c : List Str) (l : List Str) :
    (interestLoop t l).1 ≤ (interestLoop (t ++ c) l).1 := by
  induction l with
  | nil => exact le_refl 0
  | cons i rest ih =>
    rw [interestLoop, interestLoop]
    by_cases h1 : ((overlap t (getKw INTEREST_KEYWORDS i)).2).isEmpty = true
    · rw [if_pos h1]
      split_ifs with h2
      · exact ih
      · have hs := overlap_nonneg (t ++ c) (getKw INTEREST_KEYWORDS i)
        simp only []
        linarith
    · rw [if_neg h1]
      have hne : (overlap t (getKw INTEREST_KEYWORDS i)).2 ≠ [] :=
        fun hh => h1 (by rw [hh]; rfl)
      have hne2 := overlap_snd_ne_nil_append c hne
      rw [if_neg (by rw [List.isEmpty_iff]; exact hne2)]
      have := overlap_fst_le_append t c (getKw INTEREST_KEYWORDS i)
      simp only []
      linarith

theorem methodLoop_le_append (t c : List Str) (l : List Str) :
    (methodLoop t l).1 ≤ (methodLoop (t ++ c) l).1 := by
  induction l with
  | nil => exact le_refl 0
  | cons m rest ih =>
    rw [methodLoop, methodLoop]
    by_cases h1 : ((overlap t (getKw METHOD_KEYWORDS m)).2).isEmpty = true
    · rw [if_pos h1]
      split_ifs with h2
      · exact ih
      · have hs := overlap_nonneg (t ++ c) (getKw METHOD_KEYWORDS m)
        simp only []
        linarith
    · rw [if_neg h1]
      have hne : (overlap t (getKw METHOD_KEYWORDS m)).2 ≠ [] :=
        fun hh => h1 (by rw [hh]; rfl)
      have hne2 := overlap_snd_ne_nil_append c hne
      rw [if_neg (by rw [List.isEmpty_iff]; exact hne2)]
      have := overlap_fst_le_append t c (getKw METHOD_KEYWORDS m)
      simp only []
      linarith

theorem interestScores_le_append (prof : UserProfile) (t c : List Str) :
    (interestScores prof t).1 ≤ (interestScores prof (t ++ c)).1 := by
  rw [interestScores, interestScores]
  by_cases h : prof.secondary_interests.isEmpty = true
  · rw [if_pos h, if_pos h]
  · rw [if_neg h, if_neg h]
    have hloop := interestLoop_le_append t c prof.secondary_interests
    have hlen : (0 : ℚ) ≤ (prof.secondary_interests.length : ℚ) := by positivity
    refine min_le_min (le_refl 1) ?_
    gcongr

theorem methodScores_le_append (prof : UserProfile) (t c : List Str) :
    (methodScores prof t).1 ≤ (methodScores prof (t ++ c)).1 := by
  rw [methodScores, methodScores]
  by_cases h : prof.preferred_methodology.isEmpty = true
  · rw [if_pos h, if_pos h]
  · rw [if_neg h, if_neg h]
    have hloop := methodLoop_le_append t c prof.preferred_methodology
    have hlen : (0 : ℚ) ≤ (prof.preferred_methodology.length : ℚ) := by positivity
    refine min_le_min (le_refl 1) ?_
    gcongr

/-! ### Token extension when a concept is appended -/

theorem tokens_extend_concept (p : Paper) (c : Str) (conf : ℚ) :
    tokenize (fullText { p with concepts := p.concepts ++ [⟨c, conf⟩] })
      = tokenize (fullText p) ++ tokenize c := by
  rw [fullText, fullText]
  simp only [conceptText, List.map_append, List.map_cons, List.map_nil]
  cases hn : p.concepts.map (fun x => x.name) with
  | nil =>
    rw [show ([] : List Str) ++ [c] = [c] from rfl, show joinSp [c] = c from rfl,
      show joinSp ([] : List Str) = [] from rfl]
    simp only [tokenize_append, tokenize_nil]
    simp
  | cons n ns =>
    rw [joinSp_append_singleton c (n :: ns) (by simp)]
    simp only [tokenize_append]
    simp

theorem tokenSet_extend (p : Paper) (c : Str) (conf : ℚ) :
    ∃ e, tokenSet { p with concepts := p.concepts ++ [⟨c, conf⟩] } = tokenSet p ++ e := by
  rw [tokenSet, tokenSet, tokens_extend_concept, dedupF, dedupF]
  exact dedupGo_append (tokenize (fullText p)) [] (tokenize c)

/-! ### Scoring an empty token set -/

theorem matchKw_nil (k : Str) : matchKw [] (joinSp []) k = false := by
  rw [matchKw]
  by_cases hs : k.contains ' ' = true
  · rw [if_pos hs]
    cases k with
    | nil => simp [List.contains] at hs
    | cons a as =>
      rw [show joinSp ([] : List Str) = [] from rfl, containsSub]
      simp [List.tails, List.isPrefixOf]
  · rw [if_neg hs]
    simp [List.contains]

theorem overlap_nil_tokens (kws : List Str) : overlap [] kws = (0, []) := by
  rw [overlap]
  by_cases hk : kws.isEmpty = true
  · rw [if_pos hk]
  · rw [if_neg hk]
    have hfil : kws.filter (matchKw [] (joinSp [])) = [] := by
      rw [List.filter_eq_nil_iff]
      intro a _ ha
      simp [matchKw_nil a] at ha
    rw [if_pos (by rw [hfil]; rfl)]

theorem interestLoop_nil_tokens (l : List Str) : interestLoop [] l = (0, []) := by
  induction l with
  | nil => rfl
  | cons i rest ih =>
    rw [interestLoop, ih, overlap_nil_tokens]
    simp

theorem methodLoop_nil_tokens (l : List Str) : methodLoop [] l = (0, []) := by
  induction l with
  | nil => rfl
  | cons m rest ih =>
    rw [methodLoop, ih, overlap_nil_tokens]
    simp

theorem interestScores_nil_tokens (prof : UserProfile) :
    (interestScores prof []).1 = 0 := by
  rw [interestScores]
  split_ifs with h
  · rfl
  · rw [interestLoop_nil_tokens]
    simp

theorem methodScores_nil_tokens (prof : UserProfile) :
    (methodScores prof []).1 = 0 := by
  rw [methodScores]
  split_ifs with h
  · rfl
  · rw [methodLoop_nil_tokens]
    simp
/-! ### The stable descending sort of `rank_papers` -/

theorem mem_insertDesc {x z : Enriched} : ∀ {l : List Enriched},
    z ∈ insertDesc x l ↔ z = x ∨ z ∈ l := by
  intro l
  induction l with
  | nil => simp [insertDesc]
  | cons y ys ih =>
    rw [insertDesc]
    split_ifs with h
    · simp [List.mem_cons]
    · rw [List.mem_cons, ih, List.mem_cons]
      tauto

theorem insertDesc_pairwise {x : Enriched} : ∀ {l : List Enriched},
    List.Pairwise (fun a b => b.result.relevance_score ≤ a.result.relevance_score) l →
    List.Pairwise (fun a b => b.result.relevance_score ≤ a.result.relevance_score)
      (insertDesc x l) := by
  intro l
  induction l with
  | nil => intro _; simp [insertDesc]
  | cons y ys ih =>
    intro hp
    rw [List.pairwise_cons] at hp
    rw [insertDesc]
    split_ifs with h
    · rw [List.pairwise_cons]
      refine ⟨?_, by rw [List.pairwise_cons]; exact hp⟩
      intro z hz
      rcases List.mem_cons.mp hz with rfl | hz2
      · exact h
      · exact le_trans (hp.1 z hz2) h
    · rw [List.pairwise_cons]
      refine ⟨?_, ih hp.2⟩
      intro z hz
      rcases mem_insertDesc.mp hz with rfl | hz2
      · exact le_of_lt (lt_of_not_le h)
      · exact hp.1 z hz2

theorem sortDesc_pairwise : ∀ (l : List Enriched),
    List.Pairwise (fun a b => b.result.relevance_score ≤ a.result.relevance_score)
      (sortDesc l) := by
  intro l
  induction l with
  | nil => simp [sortDesc]
  | cons x xs ih =>
    rw [sortDesc]
    exact insertDesc_pairwise ih

theorem filter_insertDesc (q : ℚ) (x : Enriched) : ∀ (l : List Enriched),
    (insertDesc x l).filter (fun e => decide (e.result.relevance_score = q))
      = if decide (x.result.relevance_score = q) = true
        then x :: l.filter (fun e => decide (e.result.relevance_score = q))
        else l.filter (fun e => decide (e.result.relevance_score = q)) := by
  intro l
  induction l with
  | nil =>
    rw [insertDesc]
    simp only [List.filter_cons, List.filter_nil]
  | cons y ys ih =>
    rw [insertDesc]
    by_cases h : y.result.relevance_score ≤ x.result.relevance_score
    · rw [if_pos h, List.filter_cons]
    · rw [if_neg h, List.filter_cons, ih, List.filter_cons]
      by_cases hx : x.result.relevance_score = q
      · have hy : ¬ (y.result.relevance_score = q) := by
          intro he
          exact h (le_of_eq (by rw [he, hx]))
        simp [hx, hy]
      · by_cases hy : y.result.relevance_score = q <;> simp [hx, hy]

theorem filter_sortDesc (q : ℚ) : ∀ (l : List Enriched),
    (sortDesc l).filter (fun e => decide (e.result.relevance_score = q))
      = l.filter (fun e => decide (e.result.relevance_score = q)) := by
  intro l
  induction l with
  | nil => rfl
  | cons x xs ih =>
    rw [sortDesc, filter_insertDesc, ih, List.filter_cons]

theorem length_insertDesc (x : Enriched) : ∀ (l : List Enriched),
    (insertDesc x l).length = l.length + 1 := by
  intro l
  induction l with
  | nil => rfl
  | cons y ys ih =>
    rw [insertDesc]
    split_ifs
    · rfl
    · simp only [List.length_cons, ih]

theorem length_sortDesc : ∀ (l : List Enriched), (sortDesc l).length = l.length := by
  intro l
  induction l with
  | nil => rfl
  | cons x xs ih =>
    rw [sortDesc, length_insertDesc, ih, List.length_cons]

/-! ### `match_paper` projections and raw-score monotonicity -/

theorem matchPaper_relevance (prof : UserProfile) (p : Paper) :
    (matchPaper prof p).relevance_score
      = round1 (min 10 (max 1 (rawScore prof p * 10))) := rfl

theorem matchPaper_interest (prof : UserProfile) (p : Paper) :
    (matchPaper prof p).interest_score
      = round2 (interestScores prof (tokenSet p)).1 := rfl

theorem matchPaper_author (prof : UserProfile) (p : Paper) :
    (matchPaper prof p).author_match
      = checkAuthorMatch prof.seed_authors p.authors := rfl

theorem rawScore_le_concept (prof : UserProfile) (p : Paper) (c : Str) (conf : ℚ) :
    rawScore prof p ≤ rawScore prof { p with concepts := p.concepts ++ [⟨c, conf⟩] } := by
  obtain ⟨e, he⟩ := tokenSet_extend p c conf
  rw [rawScore, rawScore, he]
  have hauth : ({ p with concepts := p.concepts ++ [⟨c, conf⟩] } : Paper).authors
      = p.authors := rfl
  have htier : ({ p with concepts := p.concepts ++ [⟨c, conf⟩] } : Paper).journal_tier
      = p.journal_tier := rfl
  rw [hauth, htier]
  have hf := overlap_fst_le_append (tokenSet p) e (getKw FIELD_KEYWORDS prof.primary_field)
  have hi := interestScores_le_append prof (tokenSet p) e
  have hm := methodScores_le_append prof (tokenSet p) e
  have hr := overlap_fst_le_append (tokenSet p) e (getKw REGION_KEYWORDS prof.regional_focus)
  rw [fieldScores, fieldScores, regionScoreOf, regionScoreOf] at *
  rw [FIELD_WEIGHT, INTEREST_WEIGHT, METHOD_WEIGHT, REGION_WEIGHT]
  linarith

theorem matchPaperOrd_interest (prof : UserProfile) (p : Paper) (ts : List Str) :
    (matchPaperOrd prof p ts).interest_score = round2 (interestScores prof ts).1 := rfl

theorem matchPaperOrd_relevance (prof : UserProfile) (p : Paper) (ts : List Str) :
    (matchPaperOrd prof p ts).relevance_score
      = round1 (min 10 (max 1 (rawScoreOrd prof p ts * 10))) := rfl

theorem matchPaperOrd_tokenSet (prof : UserProfile) (p : Paper) :
    matchPaperOrd prof p (tokenSet p) = matchPaper prof p := rfl

theorem rawScoreOrd_le_append (prof : UserProfile) (p : Paper) (c : Str) (conf : ℚ)
    (ts e : List Str) :
    rawScoreOrd prof p ts
      ≤ rawScoreOrd prof { p with concepts := p.concepts ++ [⟨c, conf⟩] } (ts ++ e) := by
  rw [rawScoreOrd, rawScoreOrd]
  have hauth : ({ p with concepts := p.concepts ++ [⟨c, conf⟩] } : Paper).authors
      = p.authors := rfl
  have htier : ({ p with concepts := p.concepts ++ [⟨c, conf⟩] } : Paper).journal_tier
      = p.journal_tier := rfl
  rw [hauth, htier]
  have hf := overlap_fst_le_append ts e (getKw FIELD_KEYWORDS prof.primary_field)
  have hi := interestScores_le_append prof ts e
  have hm := methodScores_le_append prof ts e
  have hr := overlap_fst_le_append ts e (getKw REGION_KEYWORDS prof.regional_focus)
  rw [fieldScores, fieldScores, regionScoreOf, regionScoreOf] at *
  rw [FIELD_WEIGHT, INTEREST_WEIGHT, METHOD_WEIGHT, REGION_WEIGHT]
  linarith

/-! ### Further facts about the loops -/

theorem overlap_empty_kws (t : List Str) : overlap t [] = (0, []) := rfl

theorem interestLoop_unknown (tokens : List Str) (x : Str)
    (hx : lookupKw INTEREST_KEYWORDS x = none) : ∀ (pre post : List Str),
    interestLoop tokens (pre ++ x :: post) = interestLoop tokens (pre ++ post) := by
  have hkw : getKw INTEREST_KEYWORDS x = [] := by rw [getKw, hx]; rfl
  intro pre post
  induction pre with
  | nil =>
    rw [List.nil_append, List.nil_append, interestLoop, hkw, overlap_empty_kws]
    simp
  | cons y pre ih =>
    rw [List.cons_append, List.cons_append, interestLoop, interestLoop, ih]

theorem methodLoop_unknown (tokens : List Str) (x : Str)
    (hx : lookupKw METHOD_KEYWORDS x = none) : ∀ (pre post : List Str),
    methodLoop tokens (pre ++ x :: post) = methodLoop tokens (pre ++ post) := by
  have hkw : getKw METHOD_KEYWORDS x = [] := by rw [getKw, hx]; rfl
  intro pre post
  induction pre with
  | nil =>
    rw [List.nil_append, List.nil_append, methodLoop, hkw, overlap_empty_kws]
    simp
  | cons y pre ih =>
    rw [List.cons_append, List.cons_append, methodLoop, methodLoop, ih]

theorem interestLoop_fst_eq_sum (tokens : List Str) : ∀ (l : List Str),
    (interestLoop tokens l).1
      = (l.map fun i => (overlap tokens (getKw INTEREST_KEYWORDS i)).1).foldr (· + ·) 0 := by
  intro l
  induction l with
  | nil => rfl
  | cons i rest ih =>
    rw [interestLoop, List.map_cons, List.foldr_cons]
    split_ifs with h
    · rw [ih, overlap_fst_zero_of_snd_nil (List.isEmpty_iff.mp h)]
      ring
    · simp only []
      rw [ih]

theorem interestLoop_pair_comm (tokens : List Str) (a b : Str) :
    (interestLoop tokens [a, b]).1 = (interestLoop tokens [b, a]).1 := by
  rw [interestLoop_fst_eq_sum, interestLoop_fst_eq_sum]
  simp only [List.map_cons, List.map_nil, List.foldr_cons, List.foldr_nil]
  ring

theorem interestScores_eq_of_swap (prof1 prof2 : UserProfile) (t : List Str) (a b : Str)
    (h1 : prof1.secondary_interests = [a, b]) (h2 : prof2.secondary_interests = [b, a]) :
    (interestScores prof1 t).1 = (interestScores prof2 t).1 := by
  rw [interestScores, interestScores, h1, h2]
  rw [if_neg (by simp), if_neg (by simp)]
  rw [interestLoop_pair_comm]
  simp

theorem matchPaper_field (prof : UserProfile) (p : Paper) :
    (matchPaper prof p).field_score = round2 (fieldScores prof (tokenSet p)).1 := rfl

theorem matchPaper_region (prof : UserProfile) (p : Paper) :
    (matchPaper prof p).region_score = round2 (regionScoreOf prof (tokenSet p)) := rfl
/-! ### The claims -/

/-- C1: for every user profile and every paper record, the
`relevance_score` of the `MatchResult` produced by `match_paper` satisfies
`1.0 ≤ relevance_score ≤ 10.0`. -/
theorem c1_relevance_range (prof : UserProfile) (p : Paper) :
    1 ≤ (matchPaper prof p).relevance_score
    ∧ (matchPaper prof p).relevance_score ≤ 10 := by
  rw [matchPaper_relevance]
  exact clamp_round_bounds _

/-- C2 (counterexample): the raw combined score of the author-match-only
input is 0.5 ≥ 0.45, the code outputs exactly 5.0, but the spec's
piecewise calibration curve maps 0.5 to 90/11 ≈ 8.18 — so the final score
is not obtained from the claimed calibration curve. -/
theorem c2_calibration_cex :
    (9/20 : ℚ) ≤ rawScore c2Profile c2Paper
    ∧ rawScore c2Profile c2Paper = 1/2
    ∧ (matchPaper c2Profile c2Paper).relevance_score = 5
    ∧ specCalibration (rawScore c2Profile c2Paper) = 90/11
    ∧ (matchPaper c2Profile c2Paper).relevance_score
        ≠ specCalibration (rawScore c2Profile c2Paper) := by
  exact ⟨by decide, by decide, by decide, by decide, by decide⟩

/-- C2 (amended): the final relevance score is the raw combined score
(weighted sum plus bonuses) scaled linearly by 10, clamped to [1, 10],
and rounded to one decimal; there is no piecewise calibration curve.  The
clamping part of the original claim does hold. -/
theorem c2_amended_linear_scaling (prof : UserProfile) (p : Paper) :
    (matchPaper prof p).relevance_score = round1 (min 10 (max 1 (rawScore prof p * 10)))
    ∧ 1 ≤ (matchPaper prof p).relevance_score
    ∧ (matchPaper prof p).relevance_score ≤ 10 := by
  rw [matchPaper_relevance]
  exact ⟨rfl, clamp_round_bounds _⟩

/-- C3 (counterexample): two papers tie at relevance score 1.0; the less
cited one (0 citations) is ranked before the more cited one (100
citations) because `rank_papers` sorts by score only — the claimed
descending-`citedByCount` tie-break does not happen. -/
theorem c3_tiebreak_cex :
    ((rankPapers c3Profile [c3PaperLo, c3PaperHi]).map fun e => e.paper.cited_by_count)
        = [0, 100]
    ∧ ((rankPapers c3Profile [c3PaperLo, c3PaperHi]).map fun e => e.result.relevance_score)
        = [1, 1]
    ∧ citedTieOrdered (rankPapers c3Profile [c3PaperLo, c3PaperHi]) = false := by
  exact ⟨by decide, by decide, by decide⟩

/-- C3 (amended): `rank_papers` returns the scored papers sorted
descending by relevance score, and the sort is stable: for every score
value, the papers attaining it appear in their original input order.
`citedByCount` plays no role. -/
theorem c3_amended_stable_sort (prof : UserProfile) (papers : List Paper) :
    List.Pairwise (fun a b => b.result.relevance_score ≤ a.result.relevance_score)
      (rankPapers prof papers)
    ∧ ∀ q : ℚ,
      (rankPapers prof papers).filter (fun e => decide (e.result.relevance_score = q))
        = (papers.map fun p => (⟨p, matchPaper prof p⟩ : Enriched)).filter
            (fun e => decide (e.result.relevance_score = q)) := by
  constructor
  · rw [rankPapers]
    exact sortDesc_pairwise _
  · intro q
    rw [rankPapers, filter_sortDesc]

/-- C4 (counterexample): a paper with empty abstract and no concepts but
a seed-author match and journal tier 1 scores 8.0, far above the claimed
`< 3.5` bucket — the claim fails because the title, the author bonus and
the tier bonus are not controlled by emptying the abstract and the
concepts. -/
theorem c4_empty_abstract_cex :
    c4Paper.abstract = [] ∧ c4Paper.concepts = []
    ∧ (matchPaper c4Profile c4Paper).relevance_score = 8
    ∧ ¬ ((matchPaper c4Profile c4Paper).relevance_score < 7/2) := by
  exact ⟨rfl, rfl, by decide, by decide⟩

/-- C4 (amended): a paper whose title, abstract and concepts are all
empty and whose authors do not match any seed author never raises and
scores strictly below 3.5 (indeed at most 3.0), for every profile,
journal tier and citation count. -/
theorem c4_amended_low_score (prof : UserProfile) (p : Paper)
    (ht : p.title = []) (ha : p.abstract = []) (hc : p.concepts = [])
    (hm : checkAuthorMatch prof.seed_authors p.authors = false) :
    (matchPaper prof p).relevance_score < 7/2 := by
  have htok : tokenSet p = [] := by
    rw [tokenSet, fullText, ht, ha, hc]
    decide
  have hraw : rawScore prof p ≤ 3/10 := by
    rw [rawScore, htok, if_neg (by simp [hm])]
    have h1 : (fieldScores prof []).1 = 0 := by
      rw [fieldScores, overlap_nil_tokens]
    have h2 := interestScores_nil_tokens prof
    have h3 := methodScores_nil_tokens prof
    have h4 : regionScoreOf prof [] = 0 := by
      rw [regionScoreOf, overlap_nil_tokens]
    have h5 := tierBonus_le p.journal_tier
    rw [h1, h2, h3, h4, FIELD_WEIGHT, INTEREST_WEIGHT, METHOD_WEIGHT, REGION_WEIGHT]
    linarith
  rw [matchPaper_relevance]
  have hle : min 10 (max 1 (rawScore prof p * 10)) ≤ 3 := by
    have hmul : rawScore prof p * 10 ≤ 3 := by linarith
    exact le_trans (min_le_right _ _) (max_le (by norm_num) hmul)
  have h3q : round1 (min 10 (max 1 (rawScore prof p * 10))) ≤ ((3 : ℤ) : ℚ) :=
    round1_le_int (by exact_mod_cast hle)
  have h3r : round1 (min 10 (max 1 (rawScore prof p * 10))) ≤ (3 : ℚ) := by
    exact_mod_cast h3q
  linarith

/-- C4 (witness): the amended statement at a concrete empty paper and a
profile with no seed authors: the score is below 3.5. -/
theorem c4_amended_low_score_witness :
    c4wPaper.title = [] ∧ c4wPaper.abstract = [] ∧ c4wPaper.concepts = []
    ∧ checkAuthorMatch c4wProfile.seed_authors c4wPaper.authors = false
    ∧ (matchPaper c4wProfile c4wPaper).relevance_score < 7/2 :=
  ⟨rfl, rfl, rfl, by decide,
    c4_amended_low_score c4wProfile c4wPaper rfl rfl rfl (by decide)⟩

/-- C5 (counterexample): Python joins `set(tokens)` in an unspecified
hash order, so the program's behaviour is `matchPaperOrd` at some
admissible enumeration (a duplicate-free listing, i.e. a permutation of
the token set).  Starting from a paper whose tokens in insertion order
realise the two phrase hits "control group" and "random assignment" of
the Field Experiments (RCTs) cluster (interest score 1.0), appending the
concept "rct" — whose name exactly matches a target interest keyword,
with confidence 1.0 — admits an enumeration of the enlarged token set
under which both phrases are broken and only the single-word keyword
"rct" still hits: the interest score drops to 0.5 and the relevance
score from 3.5 to 1.8.  Adding the matching concept can therefore
strictly decrease both scores. -/
theorem c5_reorder_cex :
    (toL "rct" ∈ getKw INTEREST_KEYWORDS (toL "Field Experiments (RCTs)")
      ∧ toL "Field Experiments (RCTs)" ∈ c5xProfile.secondary_interests)
    ∧ matchPaperOrd c5xProfile c5xPaper (tokenSet c5xPaper) = matchPaper c5xProfile c5xPaper
    ∧ c5xTs.Perm (tokenSet { c5xPaper with concepts := c5xPaper.concepts ++ [⟨toL "rct", 1⟩] })
    ∧ (matchPaper c5xProfile c5xPaper).interest_score = 1
    ∧ (matchPaperOrd c5xProfile
        { c5xPaper with concepts := c5xPaper.concepts ++ [⟨toL "rct", 1⟩] } c5xTs).interest_score
        = 1/2
    ∧ (matchPaperOrd c5xProfile
        { c5xPaper with concepts := c5xPaper.concepts ++ [⟨toL "rct", 1⟩] } c5xTs).interest_score
        < (matchPaper c5xProfile c5xPaper).interest_score
    ∧ (matchPaperOrd c5xProfile
        { c5xPaper with concepts := c5xPaper.concepts ++ [⟨toL "rct", 1⟩] } c5xTs).relevance_score
        < (matchPaper c5xProfile c5xPaper).relevance_score := by
  exact ⟨⟨by decide, by decide⟩, rfl, by decide, by decide, by decide, by decide, by decide⟩

/-- C5 (amended): appending such a concept appends its tokens to the
token list and only enlarges the token set; whenever the enumeration
used for the enlarged set extends the one used before (`ts ++ e`, so the
earlier joined text is a prefix of the later one — in particular in the
canonical insertion-ordered model), `interest_score` and
`relevance_score` never decrease.  Under Python's unspecified set order
the guarantee fails: an admissible reordering can strictly decrease both
scores (see the counterexample). -/
theorem c5_amended_fixed_order_monotonicity (prof : UserProfile) (p : Paper)
    (c : Str) (conf : ℚ) (ts e : List Str)
    (hti : ∃ i ∈ prof.secondary_interests, c ∈ getKw INTEREST_KEYWORDS i)
    (hconf : conf = 1)
    (hts : ts.Perm (tokenSet p))
    (hts' : (ts ++ e).Perm (tokenSet { p with concepts := p.concepts ++ [⟨c, conf⟩] })) :
    (matchPaperOrd prof p ts).interest_score
        ≤ (matchPaperOrd prof { p with concepts := p.concepts ++ [⟨c, conf⟩] }
            (ts ++ e)).interest_score
    ∧ (matchPaperOrd prof p ts).relevance_score
        ≤ (matchPaperOrd prof { p with concepts := p.concepts ++ [⟨c, conf⟩] }
            (ts ++ e)).relevance_score := by
  constructor
  · rw [matchPaperOrd_interest, matchPaperOrd_interest]
    exact round2_mono (interestScores_le_append prof ts e)
  · rw [matchPaperOrd_relevance, matchPaperOrd_relevance]
    have hr := rawScoreOrd_le_append prof p c conf ts e
    exact round1_mono (min_le_min (le_refl 10) (max_le_max (le_refl 1) (by linarith)))

/-- C5 (witness): the amended statement at concrete inputs: the empty
paper's token set enumerates as `[]`, appending the concept "causal"
(for a profile interested in Causal Inference) extends the enumeration
to `["causal"]`, and neither score decreases. -/
theorem c5_amended_fixed_order_monotonicity_witness :
    (∃ i ∈ c5Profile.secondary_interests, toL "causal" ∈ getKw INTEREST_KEYWORDS i)
    ∧ List.Perm ([] : List Str) (tokenSet c5Paper)
    ∧ List.Perm (([] : List Str) ++ [toL "causal"])
        (tokenSet { c5Paper with concepts := c5Paper.concepts ++ [⟨toL "causal", 1⟩] })
    ∧ ((matchPaperOrd c5Profile c5Paper []).interest_score
        ≤ (matchPaperOrd c5Profile
            { c5Paper with concepts := c5Paper.concepts ++ [⟨toL "causal", 1⟩] }
            (([] : List Str) ++ [toL "causal"])).interest_score
      ∧ (matchPaperOrd c5Profile c5Paper []).relevance_score
        ≤ (matchPaperOrd c5Profile
            { c5Paper with concepts := c5Paper.concepts ++ [⟨toL "causal", 1⟩] }
            (([] : List Str) ++ [toL "causal"])).relevance_score) :=
  ⟨⟨toL "Causal Inference", by decide, by decide⟩, by decide, by decide,
    c5_amended_fixed_order_monotonicity c5Profile c5Paper (toL "causal") 1 [] [toL "causal"]
      ⟨toL "Causal Inference", by decide, by decide⟩ rfl (by decide) (by decide)⟩

/-- C6 (counterexample): for a single-interest profile and a paper with
exactly one cluster hit, the code's `interest_score` is 0.5 while the
spec's decay/0.6·max+0.4·avg/breadth-bonus formula yields 1/3 — the
claimed formula is not the one computed. -/
theorem c6_interest_formula_cex :
    (matchPaper c6Profile c6Paper).interest_score = 1/2
    ∧ specInterestScore c6Profile (tokenSet c6Paper) = 1/3
    ∧ (matchPaper c6Profile c6Paper).interest_score
        ≠ specInterestScore c6Profile (tokenSet c6Paper) := by
  exact ⟨by decide, by decide, by decide⟩

/-- C6 (amended): for a profile with a non-empty interests list, the
`interest_score` is `min(1, 1.5 · average per-interest overlap score)`
rounded to two decimals — a plain average with a ×1.5 boost, with no
position decay, no `0.6·max + 0.4·avg` mix, and no breadth bonus. -/
theorem c6_amended_interest_formula (prof : UserProfile) (p : Paper)
    (h : prof.secondary_interests ≠ []) :
    (matchPaper prof p).interest_score
      = round2 (min 1 (((prof.secondary_interests.map fun i =>
          (overlap (tokenSet p) (getKw INTEREST_KEYWORDS i)).1).foldr (· + ·) 0)
          / (prof.secondary_interests.length : ℚ) * (3/2))) := by
  rw [matchPaper_interest, interestScores,
    if_neg (by rw [List.isEmpty_iff]; exact h), interestLoop_fst_eq_sum]

/-- C6 (witness): the amended formula evaluated for a one-interest
profile. -/
theorem c6_amended_interest_formula_witness :
    c6wProfile.secondary_interests ≠ []
    ∧ (matchPaper c6wProfile c6wPaper).interest_score
        = round2 (min 1 (((c6wProfile.secondary_interests.map fun i =>
            (overlap (tokenSet c6wPaper) (getKw INTEREST_KEYWORDS i)).1).foldr (· + ·) 0)
            / (c6wProfile.secondary_interests.length : ℚ) * (3/2))) :=
  ⟨by decide, c6_amended_interest_formula c6wProfile c6wPaper (by decide)⟩

/-- C7 (counterexample): against the Causal Inference cluster, one
distinct hit scores 1/3 and two distinct hits score 2/3; no cluster
weight `w` makes these equal to the claimed `0.6·w` and `0.8·w` — the
claimed diminishing-returns mapping is not the one implemented. -/
theorem c7_hit_mapping_cex :
    ((overlap [toL "causal"] (getKw INTEREST_KEYWORDS (toL "Causal Inference"))).2).length = 1
    ∧ (overlap [toL "causal"] (getKw INTEREST_KEYWORDS (toL "Causal Inference"))).1 = 1/3
    ∧ ((overlap [toL "causal", toL "identification"]
          (getKw INTEREST_KEYWORDS (toL "Causal Inference"))).2).length = 2
    ∧ (overlap [toL "causal", toL "identification"]
          (getKw INTEREST_KEYWORDS (toL "Causal Inference"))).1 = 2/3
    ∧ ¬ ∃ w : ℚ, (1/3 : ℚ) = (3/5) * w ∧ (2/3 : ℚ) = (4/5) * w := by
  refine ⟨by decide, by decide, by decide, by decide, ?_⟩
  rintro ⟨w, h1, h2⟩
  linarith

/-- C7 (amended): for a non-empty cluster, the overlap sub-score is
determined by the distinct hit count `h` as: 0 if `h = 0`, and otherwise
`min(1, h / max(3, 0.2·|cluster|))` — there is no 0.6/0.8/1.0 step
mapping and no per-cluster weight. -/
theorem c7_amended_hit_mapping (tokens kws : List Str) (h : kws ≠ []) :
    (overlap tokens kws).1
      = if ((overlap tokens kws).2).length = 0 then 0
        else min 1 ((((overlap tokens kws).2).length : ℚ)
              / max 3 ((kws.length : ℚ) * (1/5))) := by
  have hk : ¬ (kws.isEmpty = true) := by rw [List.isEmpty_iff]; exact h
  by_cases hm : (kws.filter (matchKw tokens (joinSp tokens))).isEmpty = true
  · have h2 : overlap tokens kws = (0, []) := by
      rw [overlap, if_neg hk, if_pos hm]
    rw [h2]
    simp
  · have h2 : overlap tokens kws
        = (min 1 (((kws.filter (matchKw tokens (joinSp tokens))).length : ℚ)
            / max 3 ((kws.length : ℚ) * (1/5))), kws.filter (matchKw tokens (joinSp tokens))) := by
      rw [overlap, if_neg hk, if_neg hm]
    rw [h2]
    have hlen : (kws.filter (matchKw tokens (joinSp tokens))).length ≠ 0 := by
      rw [Ne, List.length_eq_zero]
      exact fun hh => hm (by rw [hh]; rfl)
    rw [if_neg hlen]

/-- C7 (witness): the amended mapping evaluated for one token against the
Bayesian Methods cluster. -/
theorem c7_amended_hit_mapping_witness :
    getKw METHOD_KEYWORDS (toL "Bayesian Methods") ≠ []
    ∧ (overlap [toL "bayesian"] (getKw METHOD_KEYWORDS (toL "Bayesian Methods"))).1
        = if ((overlap [toL "bayesian"]
              (getKw METHOD_KEYWORDS (toL "Bayesian Methods"))).2).length = 0 then 0
          else min 1 ((((overlap [toL "bayesian"]
                (getKw METHOD_KEYWORDS (toL "Bayesian Methods"))).2).length : ℚ)
              / max 3 (((getKw METHOD_KEYWORDS (toL "Bayesian Methods")).length : ℚ) * (1/5))) :=
  ⟨by decide, c7_amended_hit_mapping [toL "bayesian"]
    (getKw METHOD_KEYWORDS (toL "Bayesian Methods")) (by decide)⟩

/-- C8: a profile field or region absent from the taxonomy contributes a
zero sub-score; an interest or method absent from the taxonomy adds
nothing to its loop (the loop equals the loop without it); and ranking N
papers always yields exactly N scored results.  No case raises. -/
theorem c8_unknown_values_degrade (prof : UserProfile) (p : Paper) (papers : List Paper)
    (tokens : List Str) (x : Str) (pre post : List Str)
    (hf : lookupKw FIELD_KEYWORDS prof.primary_field = none)
    (hr : lookupKw REGION_KEYWORDS prof.regional_focus = none)
    (hxi : lookupKw INTEREST_KEYWORDS x = none)
    (hxm : lookupKw METHOD_KEYWORDS x = none) :
    (matchPaper prof p).field_score = 0
    ∧ (matchPaper prof p).region_score = 0
    ∧ interestLoop tokens (pre ++ x :: post) = interestLoop tokens (pre ++ post)
    ∧ methodLoop tokens (pre ++ x :: post) = methodLoop tokens (pre ++ post)
    ∧ (rankPapers prof papers).length = papers.length := by
  refine ⟨?_, ?_, interestLoop_unknown tokens x hxi pre post,
    methodLoop_unknown tokens x hxm pre post, ?_⟩
  · rw [matchPaper_field, fieldScores,
      show getKw FIELD_KEYWORDS prof.primary_field = [] from by rw [getKw, hf]; rfl,
      overlap_empty_kws]
    exact round2_zero
  · rw [matchPaper_region, regionScoreOf,
      show getKw REGION_KEYWORDS prof.regional_focus = [] from by rw [getKw, hr]; rfl,
      overlap_empty_kws]
    exact round2_zero
  · rw [rankPapers, length_sortDesc, List.length_map]

/-- C8 (witness): a profile made entirely of labels outside the taxonomy
still scores and ranks without error, with zero field and region scores. -/
theorem c8_unknown_values_degrade_witness :
    lookupKw FIELD_KEYWORDS c8Profile.primary_field = none
    ∧ lookupKw REGION_KEYWORDS c8Profile.regional_focus = none
    ∧ lookupKw INTEREST_KEYWORDS (toL "Basket Weaving") = none
    ∧ lookupKw METHOD_KEYWORDS (toL "Basket Weaving") = none
    ∧ ((matchPaper c8Profile c8Paper).field_score = 0
      ∧ (matchPaper c8Profile c8Paper).region_score = 0
      ∧ interestLoop [toL "labor"] ([] ++ toL "Basket Weaving" :: [])
          = interestLoop [toL "labor"] ([] ++ [])
      ∧ methodLoop [toL "labor"] ([] ++ toL "Basket Weaving" :: [])
          = methodLoop [toL "labor"] ([] ++ [])
      ∧ (rankPapers c8Profile [c8Paper]).length = [c8Paper].length) :=
  ⟨by decide, by decide, by decide, by decide,
    c8_unknown_values_degrade c8Profile c8Paper [c8Paper] [toL "labor"]
      (toL "Basket Weaving") [] [] (by decide) (by decide) (by decide) (by decide)⟩

/-- C9: for distinct interests A and B and a paper matching only B, the
`interest_score` of the profile with interests `[B, A]` is at least that
of the profile with interests `[A, B]` (in this implementation the two
are in fact equal, because the per-interest scores are averaged without
position weights). -/
theorem c9_order_sensitivity (prof : UserProfile) (p : Paper) (A B : Str)
    (hne : A ≠ B)
    (hA : (overlap (tokenSet p) (getKw INTEREST_KEYWORDS A)).2 = [])
    (hB : (overlap (tokenSet p) (getKw INTEREST_KEYWORDS B)).2 ≠ []) :
    (matchPaper { prof with secondary_interests := [A, B] } p).interest_score
      ≤ (matchPaper { prof with secondary_interests := [B, A] } p).interest_score := by
  rw [matchPaper_interest, matchPaper_interest]
  exact le_of_eq (congrArg round2
    (interestScores_eq_of_swap _ _ (tokenSet p) A B rfl rfl))

/-- C9 (witness): with A = Causal Inference, B = Immigration and a paper
whose only token is "refugee" (matching only B), the [B, A] profile's
interest score is at least the [A, B] profile's. -/
theorem c9_order_sensitivity_witness :
    toL "Causal Inference" ≠ toL "Immigration"
    ∧ (overlap (tokenSet c9Paper) (getKw INTEREST_KEYWORDS (toL "Causal Inference"))).2 = []
    ∧ (overlap (tokenSet c9Paper) (getKw INTEREST_KEYWORDS (toL "Immigration"))).2 ≠ []
    ∧ (matchPaper { c9Profile with
          secondary_interests := [toL "Causal Inference", toL "Immigration"] } c9Paper).interest_score
      ≤ (matchPaper { c9Profile with
          secondary_interests := [toL "Immigration", toL "Causal Inference"] } c9Paper).interest_score :=
  ⟨by decide, by decide, by decide,
    c9_order_sensitivity c9Profile c9Paper (toL "Causal Inference") (toL "Immigration")
      (by decide) (by decide) (by decide)⟩

/-- C10: whenever the returned `author_match` is true, the relevance
score is at least 5.0: the flat 0.5 author bonus, scaled by 10 and
clamped, guarantees the midpoint of the scale by itself. -/
theorem c10_author_bonus_floor (prof : UserProfile) (p : Paper)
    (h : (matchPaper prof p).author_match = true) :
    5 ≤ (matchPaper prof p).relevance_score := by
  rw [matchPaper_author] at h
  rw [matchPaper_relevance]
  have hraw : 1/2 ≤ rawScore prof p := by
    rw [rawScore, if_pos h]
    have h1 := overlap_nonneg (tokenSet p) (getKw FIELD_KEYWORDS prof.primary_field)
    have h2 := interestScores_nonneg prof (tokenSet p)
    have h3 := methodScores_nonneg prof (tokenSet p)
    have h4 := overlap_nonneg (tokenSet p) (getKw REGION_KEYWORDS prof.regional_focus)
    have h5 := tierBonus_nonneg p.journal_tier
    rw [fieldScores, regionScoreOf, FIELD_WEIGHT, INTEREST_WEIGHT, METHOD_WEIGHT,
      REGION_WEIGHT, AUTHOR_BONUS]
    linarith
  have h5q : ((5 : ℤ) : ℚ) ≤ min 10 (max 1 (rawScore prof p * 10)) := by
    push_cast
    refine le_min (by norm_num) (le_trans (by linarith) (le_max_right 1 _))
  have := int_le_round1 h5q
  exact_mod_cast this

/-- C10 (witness): a seed-author match with no other signal yields
exactly the midpoint score 5.0 ≥ 5. -/
theorem c10_author_bonus_floor_witness :
    (matchPaper c10Profile c10Paper).author_match = true
    ∧ 5 ≤ (matchPaper c10Profile c10Paper).relevance_score :=
  ⟨by decide, c10_author_bonus_floor c10Profile c10Paper (by decide)⟩
end EconDiscovery
